import Mathlib

/-!
Verification of the filey-rs filesystem-convenience library.

The Rust sources are shallowly embedded as follows:

* `src/unit_of_information.rs` — the size formatter (`UnitOfInfo`,
  `convert`, `format`, `round`, `digit`) becomes pure functions on `Nat`
  (Rust `u64` values are naturals; where a claim depends on the `u64`
  range we add the bound `n < 2^64` as a hypothesis).
* path strings become `List Char` (`Str`); Rust's `String::replacen(pat, to, 1)`
  becomes `replaceFirst`, `str::starts_with` becomes the list prefix
  relation `<+:`.
* filesystem state becomes `FileSystem`: a map from paths to an optional
  `FileTypes` classification, a byte length, and a directory entry list.
  This is a flat model: it tracks the observable result of the metadata
  queries (`exists`, `is_dir`, `is_symlink`, `metadata().len()`,
  `read_dir`) that the embedded functions call; children of a renamed
  directory are not tracked, which none of the proved statements depend on.
* fallible Rust functions returning `crate::Result<T>` become
  `Except Error T`.  The crate's `Error` enum is declared outside the
  available sources; its constructors are reconstructed from their use
  sites (`NotFound`, `AlreadyExists`, `SameNameAlreadyExists`,
  `NotADirectory`, `GetFileNameError`, `FileyError`).  `FileyError` wraps
  an underlying OS or environment error whose payload is not modelled.

Floating point note: `UnitOfInfo::convert` computes `(n / m) as f64`
(integer division first, then an exact cast) and `round` applies
`f64::round` to that value.  Every quotient that `format` passes to
`round` is an integer below 1000 for the KiB..PiB buckets and below 2^4
for the EiB bucket, far below 2^53, so the `f64` round trip is exact and
`round` is the identity on it.  The embedding therefore keeps the
quotient as a `Nat` and `round` as the identity function.
-/

namespace FileyRs

/-- Path strings are modelled as lists of characters. -/
abbrev Str := List Char

/-- The crate's error enum, reconstructed from its use sites; payloads are
the path strings the constructors carry in the source.  `FileyError` wraps
an underlying OS or environment error (payload not modelled). -/
inductive Error
  | NotFound (path : Str)
  | AlreadyExists (path : Str)
  | SameNameAlreadyExists (path : Str)
  | NotADirectory (path : Str)
  | GetFileNameError (path : Str)
  | FileyError
deriving DecidableEq

/-- The `UnitOfInfo` enum of `src/unit_of_information.rs`. -/
inductive UnitOfInfo
  | KiB
  | MiB
  | GiB
  | TiB
  | PiB
  | EiB
deriving DecidableEq

/-- The `impl From<UnitOfInfo> for u64` table of `src/unit_of_information.rs`
(lines 28-39): each unit's power-of-1024 multiplier. -/
def UnitOfInfo.toU64 : UnitOfInfo → Nat
  | .KiB => 1024
  | .MiB => 1048576
  | .GiB => 1073741824
  | .TiB => 1099511627776
  | .PiB => 1125899906842624
  | .EiB => 1152921504606846976

/-- The `impl fmt::Display for UnitOfInfo` of `src/unit_of_information.rs`. -/
def UnitOfInfo.toStr : UnitOfInfo → String
  | .KiB => "KiB"
  | .MiB => "MiB"
  | .GiB => "GiB"
  | .TiB => "TiB"
  | .PiB => "PiB"
  | .EiB => "EiB"

/-- `fn digit(n: u64) -> u64` of `src/unit_of_information.rs` (lines 78-80):
the length of the decimal string representation of `n`.  Rust's
`n.to_string()` is `Nat.repr` here. -/
def digit (n : Nat) : Nat := (Nat.repr n).length

/-- `UnitOfInfo::convert` of `src/unit_of_information.rs` (lines 49-52):
`(n / m) as f64` with `m` the unit's multiplier — integer division, then a
cast that is exact for every value `format` produces (see the module
comment), so the quotient is kept as a `Nat`. -/
def convert (n : Nat) (u : UnitOfInfo) : Nat := n / u.toU64

/-- `fn round(n: f64) -> u64` of `src/unit_of_information.rs` (lines 74-76):
`f64::round` followed by a cast to `u64`; the identity on the exact integer
values `format` feeds it (see the module comment). -/
def round (n : Nat) : Nat := n

/-- `UnitOfInfo::format` of `src/unit_of_information.rs` (lines 54-71):
bucket `n` by its decimal digit count, divide by the bucket's multiplier
and append the unit suffix; out-of-bucket values render as `<n>B`. -/
def format (n : Nat) : String :=
  let m := digit n
  if 4 ≤ m ∧ m < 7 then Nat.repr (round (convert n .KiB)) ++ UnitOfInfo.toStr .KiB
  else if 7 ≤ m ∧ m < 10 then Nat.repr (round (convert n .MiB)) ++ UnitOfInfo.toStr .MiB
  else if 10 ≤ m ∧ m < 13 then Nat.repr (round (convert n .GiB)) ++ UnitOfInfo.toStr .GiB
  else if 13 ≤ m ∧ m < 16 then Nat.repr (round (convert n .TiB)) ++ UnitOfInfo.toStr .TiB
  else if 16 ≤ m ∧ m < 19 then Nat.repr (round (convert n .PiB)) ++ UnitOfInfo.toStr .PiB
  else if 19 ≤ m ∧ m < 22 then Nat.repr (round (convert n .EiB)) ++ UnitOfInfo.toStr .EiB
  else Nat.repr n ++ "B"

/-- Unfolding lemma for `format` with the `let` binding zeta-reduced. -/
theorem format_def (n : Nat) : format n =
    (if 4 ≤ digit n ∧ digit n < 7 then Nat.repr (round (convert n .KiB)) ++ UnitOfInfo.toStr .KiB
    else if 7 ≤ digit n ∧ digit n < 10 then Nat.repr (round (convert n .MiB)) ++ UnitOfInfo.toStr .MiB
    else if 10 ≤ digit n ∧ digit n < 13 then Nat.repr (round (convert n .GiB)) ++ UnitOfInfo.toStr .GiB
    else if 13 ≤ digit n ∧ digit n < 16 then Nat.repr (round (convert n .TiB)) ++ UnitOfInfo.toStr .TiB
    else if 16 ≤ digit n ∧ digit n < 19 then Nat.repr (round (convert n .PiB)) ++ UnitOfInfo.toStr .PiB
    else if 19 ≤ digit n ∧ digit n < 22 then Nat.repr (round (convert n .EiB)) ++ UnitOfInfo.toStr .EiB
    else Nat.repr n ++ "B") := rfl

/-- The digit-count interval of `format`'s dispatch that selects each unit:
lower bounds of the half-open ranges `(4..7)`, `(7..10)`, ... in
`UnitOfInfo::format`. -/
def UnitOfInfo.bucketLo : UnitOfInfo → Nat
  | .KiB => 4
  | .MiB => 7
  | .GiB => 10
  | .TiB => 13
  | .PiB => 16
  | .EiB => 19

/-- Upper (exclusive) bounds of the digit-count ranges in
`UnitOfInfo::format`'s dispatch. -/
def UnitOfInfo.bucketHi : UnitOfInfo → Nat
  | .KiB => 7
  | .MiB => 10
  | .GiB => 13
  | .TiB => 16
  | .PiB => 19
  | .EiB => 22

/-- Length of the digit list produced by `Nat.toDigitsCore` once the fuel
dominates the digit count: exactly `Nat.log 10 n + 1`. -/
theorem toDigitsCore_len (f : Nat) : ∀ n : Nat, Nat.log 10 n < f →
    (Nat.toDigitsCore 10 f n []).length = Nat.log 10 n + 1 := by
  induction f with
  | zero => intro n h; omega
  | succ f ih =>
    intro n h
    simp only [Nat.toDigitsCore]
    by_cases h10 : n / 10 = 0
    · have hn : n < 10 := by omega
      have hlog : Nat.log 10 n = 0 := by
        rw [Nat.log_eq_zero_iff]; left; exact hn
      simp [h10, hlog]
    · have hn : 10 ≤ n := by
        by_contra hc
        exact h10 (Nat.div_eq_of_lt (by omega))
      have hlog : 0 < Nat.log 10 n := Nat.log_pos (by norm_num) hn
      have hstep : Nat.log 10 (n / 10) = Nat.log 10 n - 1 := Nat.log_div_base 10 n
      rw [if_neg h10, Nat.toDigitsCore_lens_eq, ih (n / 10) (by omega)]
      omega

/-- The decimal digit count used by `format` equals `Nat.log 10 n + 1`. -/
theorem digit_eq_log (n : Nat) : digit n = Nat.log 10 n + 1 := by
  have h : Nat.log 10 n < n + 1 := Nat.lt_succ_of_le (Nat.log_le_self 10 n)
  exact toDigitsCore_len (n + 1) n h

/-- A lower bound on the byte count forces a lower bound on the digit count. -/
theorem le_digit_of_pow_le (k n : Nat) (h : 10 ^ k ≤ n) : k + 1 ≤ digit n := by
  rw [digit_eq_log]
  have hn : n ≠ 0 := by
    intro h0
    rw [h0] at h
    have hp : 0 < 10 ^ k := pow_pos (by norm_num) k
    omega
  have := (Nat.pow_le_iff_le_log (by norm_num) hn).mp h
  omega

/-- An upper bound on the byte count forces an upper bound on the digit count. -/
theorem digit_lt_of_lt_pow (k n : Nat) (h : n < 10 ^ k) (hk : 0 < k) :
    digit n < k + 1 := by
  rw [digit_eq_log]
  rcases Nat.eq_zero_or_pos n with h0 | h0
  · subst h0
    simp [Nat.log_zero_right]
    omega
  · have := Nat.log_lt_of_lt_pow (by omega) h
    omega

/-- The branch-by-branch evaluation of `format`: each digit-count bucket
renders the integer quotient by its unit's multiplier, and digit counts
outside all buckets render the bare byte count. -/
theorem format_bucket_eq (n : Nat) :
    (4 ≤ digit n → digit n < 7 → format n = Nat.repr (n / 1024) ++ "KiB")
    ∧ (7 ≤ digit n → digit n < 10 → format n = Nat.repr (n / 1048576) ++ "MiB")
    ∧ (10 ≤ digit n → digit n < 13 → format n = Nat.repr (n / 1073741824) ++ "GiB")
    ∧ (13 ≤ digit n → digit n < 16 → format n = Nat.repr (n / 1099511627776) ++ "TiB")
    ∧ (16 ≤ digit n → digit n < 19 → format n = Nat.repr (n / 1125899906842624) ++ "PiB")
    ∧ (19 ≤ digit n → digit n < 22 → format n = Nat.repr (n / 1152921504606846976) ++ "EiB")
    ∧ (digit n < 4 ∨ 22 ≤ digit n → format n = Nat.repr n ++ "B") := by
  refine ⟨?_, ?_, ?_, ?_, ?_, ?_, ?_⟩
  · intro h1 h2
    rw [format_def, if_pos (by omega)]
    rfl
  · intro h1 h2
    rw [format_def, if_neg (by omega), if_pos (by omega)]
    rfl
  · intro h1 h2
    rw [format_def, if_neg (by omega), if_neg (by omega), if_pos (by omega)]
    rfl
  · intro h1 h2
    rw [format_def, if_neg (by omega), if_neg (by omega), if_neg (by omega),
      if_pos (by omega)]
    rfl
  · intro h1 h2
    rw [format_def, if_neg (by omega), if_neg (by omega), if_neg (by omega),
      if_neg (by omega), if_pos (by omega)]
    rfl
  · intro h1 h2
    rw [format_def, if_neg (by omega), if_neg (by omega), if_neg (by omega),
      if_neg (by omega), if_neg (by omega), if_pos (by omega)]
    rfl
  · intro h
    rw [format_def, if_neg (by omega), if_neg (by omega), if_neg (by omega),
      if_neg (by omega), if_neg (by omega), if_neg (by omega)]

/-- Claim C3: for every byte count whose decimal digit count lands in one of
the six digit-count buckets of `UnitOfInfo::format`, the displayed magnitude
is the integer quotient of the count by that unit's power-of-1024 multiplier
(the rounding step is the identity on that quotient); every count whose digit
count lies outside all buckets renders as the bare byte count followed by
"B". -/
theorem format_bucket_division_c3 (n : Nat) :
    (4 ≤ digit n → digit n < 7 → format n = Nat.repr (n / 1024) ++ "KiB")
    ∧ (7 ≤ digit n → digit n < 10 → format n = Nat.repr (n / 1048576) ++ "MiB")
    ∧ (10 ≤ digit n → digit n < 13 → format n = Nat.repr (n / 1073741824) ++ "GiB")
    ∧ (13 ≤ digit n → digit n < 16 → format n = Nat.repr (n / 1099511627776) ++ "TiB")
    ∧ (16 ≤ digit n → digit n < 19 → format n = Nat.repr (n / 1125899906842624) ++ "PiB")
    ∧ (19 ≤ digit n → digit n < 22 → format n = Nat.repr (n / 1152921504606846976) ++ "EiB")
    ∧ (digit n < 4 ∨ 22 ≤ digit n → format n = Nat.repr n ++ "B") :=
  format_bucket_eq n

/-- Witness for C3: 5000 bytes has 4 decimal digits, lands in the KiB bucket
and displays the integer quotient 5000 / 1024 = 4. -/
theorem format_bucket_division_c3_witness :
    4 ≤ digit 5000 ∧ digit 5000 < 7
    ∧ format 5000 = Nat.repr (5000 / 1024) ++ "KiB" ∧ format 5000 = "4KiB" :=
  ⟨by decide, by decide,
    (format_bucket_division_c3 5000).1 (by decide) (by decide), by decide⟩

/-- Claim C2 counterexample: 1 000 000 000 lies in the claimed interval
[1048576, 1073741823] but has 10 decimal digits, so `format` picks the GiB
bucket and renders "0GiB", which does not end in "MiB". -/
theorem format_mib_bucket_c2_cex :
    1048576 ≤ 1000000000 ∧ 1000000000 ≤ 1073741823
    ∧ format 1000000000 = "0GiB"
    ∧ ¬ ∃ t : String, format 1000000000 = t ++ "MiB" := by
  refine ⟨by norm_num, by norm_num, by decide, ?_⟩
  rintro ⟨t, ht⟩
  have h0 : format 1000000000 = "0GiB" := by decide
  have hd : ("0GiB").data = t.data ++ ("MiB").data :=
    congrArg String.data (h0.symm.trans ht) |>.trans (String.data_append t "MiB")
  have hl : t.data.length = 1 := by
    have hlen := congrArg List.length hd
    rw [List.length_append] at hlen
    have e1 : ("0GiB").data.length = 4 := by decide
    have e2 : ("MiB").data.length = 3 := by decide
    rw [e1, e2] at hlen
    omega
  match hdata : t.data, hl with
  | [c], _ =>
    rw [hdata] at hd
    have hd2 : ('0' :: 'G' :: 'i' :: 'B' :: ([] : List Char))
        = c :: 'M' :: 'i' :: 'B' :: [] := hd
    have hG := (List.cons.inj (List.cons.inj hd2).2).1
    exact absurd hG (by decide)

/-- Claim C2, amended: for every byte count in [1048576, 999999999] (the part
of the claimed interval whose digit count is 7, 8 or 9) `format` ends with
"MiB"; counts in [1000000000, 1073741823] have 10 digits and format as GiB. -/
theorem format_mib_bucket_c2 (n : Nat) (h1 : 1048576 ≤ n) (h2 : n ≤ 999999999) :
    ∃ t : String, format n = t ++ "MiB" := by
  have hlo : 7 ≤ digit n := le_digit_of_pow_le 6 n (by omega)
  have hhi : digit n < 10 := digit_lt_of_lt_pow 9 n (by omega) (by omega)
  exact ⟨Nat.repr (n / 1048576), (format_bucket_eq n).2.1 hlo hhi⟩

/-- Witness for the amended C2 at 2097152 = 2 * 1048576. -/
theorem format_mib_bucket_c2_witness :
    1048576 ≤ 2097152 ∧ 2097152 ≤ 999999999
    ∧ ∃ t : String, format 2097152 = t ++ "MiB" :=
  ⟨by norm_num, by norm_num, format_mib_bucket_c2 2097152 (by norm_num) (by norm_num)⟩

/-- Claim C6: the four pinned example values of the spec. -/
theorem format_examples_c6 :
    format 1024 = "1KiB" ∧ format 1048576 = "1MiB"
    ∧ format 1073741824 = "1GiB" ∧ format 0 = "0B" := by
  refine ⟨by decide, by decide, by decide, by decide⟩

/-- Claim C10: on the `u64` range, the digit count is between 1 and 20, so
the digit-count dispatch of `format` is exhaustive: counts up to 3 fall
through to the bare "B" branch, and counts from 4 on land in exactly one of
the six unit buckets; `format` always returns a string (it is a total
function of the embedded model, mirroring that the Rust code has no
unreachable arm or unwrap to trip on). -/
theorem format_total_c10 (n : Nat) (h : n < 18446744073709551616) :
    (1 ≤ digit n ∧ digit n ≤ 20)
    ∧ (digit n ≤ 3 → format n = Nat.repr n ++ "B")
    ∧ (4 ≤ digit n → ∃ u : UnitOfInfo,
        (u.bucketLo ≤ digit n ∧ digit n < u.bucketHi)
        ∧ format n = Nat.repr (round (convert n u)) ++ u.toStr)
    ∧ (∀ u v : UnitOfInfo, u.bucketLo ≤ digit n → digit n < u.bucketHi →
        v.bucketLo ≤ digit n → digit n < v.bucketHi → u = v) := by
  have hb : digit n ≤ 20 := by
    have := digit_lt_of_lt_pow 20 n (by omega) (by omega)
    omega
  have h1 : 1 ≤ digit n := by
    rw [digit_eq_log]; omega
  refine ⟨⟨h1, hb⟩, ?_, ?_, ?_⟩
  · intro h3
    exact (format_bucket_eq n).2.2.2.2.2.2 (Or.inl (by omega))
  · intro h4
    rcases Nat.lt_or_ge (digit n) 7 with h7 | h7
    · exact ⟨.KiB, ⟨h4, h7⟩, by rw [format_def, if_pos (by omega)]⟩
    rcases Nat.lt_or_ge (digit n) 10 with ha | ha
    · exact ⟨.MiB, ⟨h7, ha⟩,
        by rw [format_def, if_neg (by omega), if_pos (by omega)]⟩
    rcases Nat.lt_or_ge (digit n) 13 with hc | hc
    · exact ⟨.GiB, ⟨ha, hc⟩,
        by rw [format_def, if_neg (by omega), if_neg (by omega), if_pos (by omega)]⟩
    rcases Nat.lt_or_ge (digit n) 16 with he | he
    · exact ⟨.TiB, ⟨hc, he⟩,
        by rw [format_def, if_neg (by omega), if_neg (by omega), if_neg (by omega),
          if_pos (by omega)]⟩
    rcases Nat.lt_or_ge (digit n) 19 with hg | hg
    · exact ⟨.PiB, ⟨he, hg⟩,
        by rw [format_def, if_neg (by omega), if_neg (by omega), if_neg (by omega),
          if_neg (by omega), if_pos (by omega)]⟩
    · exact ⟨.EiB, ⟨hg, show digit n < 22 by omega⟩,
        by rw [format_def, if_neg (by omega), if_neg (by omega), if_neg (by omega),
          if_neg (by omega), if_neg (by omega), if_pos (by omega)]⟩
  · intro u v hu1 hu2 hv1 hv2
    cases u <;> cases v <;>
      first
      | rfl
      | (exfalso
         simp only [UnitOfInfo.bucketLo, UnitOfInfo.bucketHi] at hu1 hu2 hv1 hv2
         omega)

/-- Witness for C10 at 500 (3 digits, bare-byte branch) and at
18446744073709551615 = 2^64 - 1 (20 digits, EiB bucket). -/
theorem format_total_c10_witness :
    (1 ≤ digit 500 ∧ digit 500 ≤ 20) ∧ format 500 = Nat.repr 500 ++ "B"
    ∧ (1 ≤ digit 18446744073709551615 ∧ digit 18446744073709551615 ≤ 20)
    ∧ format 18446744073709551615 = "15EiB" :=
  ⟨(format_total_c10 500 (by norm_num)).1,
    (format_total_c10 500 (by norm_num)).2.1 (by decide),
    (format_total_c10 18446744073709551615 (by norm_num)).1,
    by decide⟩

/-- Models Rust `s.replacen(pat, to, 1)`: replace the leftmost occurrence of
`pat` in `s` by `rep`, leaving `s` unchanged when `pat` does not occur.  An
empty pattern matches at position 0, as in Rust. -/
def replaceFirst (pat rep : Str) : Str → Str
  | [] => if pat = [] then rep else []
  | c :: cs =>
    if pat <+: (c :: cs) then rep ++ (c :: cs).drop pat.length
    else c :: replaceFirst pat rep cs

/-- The `Filey` struct: a wrapper around one path (`src/filey.rs` lines 18-21
and `src/file_operations.rs` lines 22-25 declare the same shape). -/
structure Filey where
  path : Str
deriving DecidableEq

/-- `Filey::expand_user` of `src/filey.rs` (lines 264-271).  `home` is the
result of the `var("HOME")` lookup (`none` when HOME is unset or not valid
Unicode); in this revision the lookup runs only inside the tilde branch, so a
tilde-free path never consults it. -/
def Filey.expand_user (home : Option Str) (s : Str) : Except Error Str :=
  if ['~'] <+: s then
    match home with
    | none => .error .FileyError
    | some h => .ok (replaceFirst ['~'] h s)
  else .ok s

/-- `Filey::contract_user` of `src/filey.rs` (lines 295-303): the HOME lookup
runs first; then a leading occurrence of the home string is replaced by a
tilde. -/
def Filey.contract_user (home : Option Str) (s : Str) : Except Error Str :=
  match home with
  | none => .error .FileyError
  | some h => .ok (if h <+: s then replaceFirst h ['~'] s else s)

namespace FileOperations

/-- `Filey::expand_user` of `src/file_operations.rs` (lines 313-323).  Unlike
the `src/filey.rs` revision, the HOME lookup runs before the tilde test, so
this variant fails even for tilde-free paths when HOME is unavailable. -/
def expand_user (home : Option Str) (s : Str) : Except Error Str :=
  match home with
  | none => .error .FileyError
  | some h => if ['~'] <+: s then .ok (replaceFirst ['~'] h s) else .ok s

end FileOperations

/-- When the pattern is a prefix of the string, `replaceFirst` replaces that
leading occurrence and keeps the remainder. -/
theorem replaceFirst_of_prefix (pat rep s : Str) (h : pat <+: s) :
    replaceFirst pat rep s = rep ++ s.drop pat.length := by
  cases s with
  | nil =>
    have hp : pat = [] := List.prefix_nil.mp h
    subst hp
    simp [replaceFirst]
  | cons c cs =>
    simp only [replaceFirst]
    rw [if_pos h]

/-- Claim C7: contracting a path that starts with the home directory and then
expanding it again returns the original path, provided the HOME lookup
succeeds.  Stated for every absolute path with the home value as a prefix. -/
theorem contract_expand_roundtrip_c7 (home s : Str) (habs : ['/'] <+: s)
    (h : home <+: s) :
    (Filey.contract_user (some home) s).bind
      (fun t => Filey.expand_user (some home) t) = Except.ok s := by
  obtain ⟨r, rfl⟩ := h
  have hp : home <+: home ++ r := List.prefix_append home r
  have hc : Filey.contract_user (some home) (home ++ r)
      = Except.ok ('~' :: (home ++ r).drop home.length) := by
    simp only [Filey.contract_user]
    rw [if_pos hp, replaceFirst_of_prefix home ['~'] (home ++ r) hp]
    rfl
  rw [hc]
  show Filey.expand_user (some home) ('~' :: (home ++ r).drop home.length)
      = Except.ok (home ++ r)
  rw [List.drop_left]
  simp only [Filey.expand_user]
  rw [if_pos ⟨r, rfl⟩, replaceFirst_of_prefix ['~'] home ('~' :: r) ⟨r, rfl⟩]
  rfl

/-- Witness for C7 on a concrete absolute path under a concrete home. -/
theorem contract_expand_roundtrip_c7_witness :
    (Filey.contract_user (some ("/home/u".data)) ("/home/u/cats.png".data)).bind
      (fun t => Filey.expand_user (some ("/home/u".data)) t)
      = Except.ok ("/home/u/cats.png".data) :=
  contract_expand_roundtrip_c7 ("/home/u".data) ("/home/u/cats.png".data)
    (by decide) (by decide)

/-- Claim C9: `expand_user` (src/filey.rs) replaces exactly the leading tilde
by the home value and keeps the remainder (even if the remainder contains
further tildes); a path that does not start with a tilde is returned
unchanged for every state of the HOME lookup; a leading tilde with HOME
unavailable fails with the error wrapping the environment failure. -/
theorem expand_user_behavior_c9 (env : Option Str) (home rest s : Str) :
    (s = '~' :: rest → Filey.expand_user (some home) s = .ok (home ++ rest))
    ∧ (¬ ['~'] <+: s → Filey.expand_user env s = .ok s)
    ∧ (s = '~' :: rest → Filey.expand_user none s = .error .FileyError) := by
  refine ⟨?_, ?_, ?_⟩
  · rintro rfl
    simp only [Filey.expand_user]
    rw [if_pos ⟨rest, rfl⟩,
      replaceFirst_of_prefix ['~'] home ('~' :: rest) ⟨rest, rfl⟩]
    rfl
  · intro hnp
    simp only [Filey.expand_user]
    rw [if_neg hnp]
  · rintro rfl
    simp only [Filey.expand_user]
    rw [if_pos ⟨rest, rfl⟩]

/-- Witness for C9: tilde path expanded (note the second tilde survives),
tilde-free path unchanged with no HOME needed, and the failure case. -/
theorem expand_user_behavior_c9_witness :
    Filey.expand_user (some ("/home/u".data)) ('~' :: "/a~b".data)
      = .ok ("/home/u".data ++ "/a~b".data)
    ∧ Filey.expand_user none ("rel/a".data) = .ok ("rel/a".data)
    ∧ Filey.expand_user none ('~' :: "/a~b".data) = .error .FileyError :=
  ⟨(expand_user_behavior_c9 none ("/home/u".data) ("/a~b".data)
      ('~' :: "/a~b".data)).1 rfl,
    (expand_user_behavior_c9 none ("/home/u".data) ("/a~b".data)
      ("rel/a".data)).2.1 (by decide),
    (expand_user_behavior_c9 none ("/home/u".data) ("/a~b".data)
      ('~' :: "/a~b".data)).2.2 rfl⟩

/-- A path segment as classified by the lexical normalization of the external
`path_absolutize` crate: the current-directory segment, the parent-directory
segment, or a normal named segment. -/
inductive Seg
  | dot
  | dotdot
  | normal (name : Str)
deriving DecidableEq

/-- A parsed path: an absolute flag plus its list of segments. -/
structure RPath where
  absolute : Bool
  segs : List Seg
deriving DecidableEq

/-- Modelled from the spec: one step of the lexical `.`/`..` resolution that
the `path_absolutize` collaborator performs for `Filey::absolutize`
(src/filey.rs lines 195-203) and `Filey::absolutized`
(src/file_operations.rs lines 242-252); the crate's own source is not part
of this repository.  A `.` segment is dropped, `..` pops the last retained
segment (staying at the root when none is left), and a normal segment is
appended. -/
def lexStep (stack : List Seg) : Seg → List Seg
  | .dot => stack
  | .dotdot => stack.dropLast
  | .normal n => stack ++ [.normal n]

/-- Modelled from the spec: full lexical resolution of a segment list. -/
def lexResolve (l : List Seg) : List Seg := l.foldl lexStep []

/-- Modelled from the spec: `absolutize(path)` (spec section 4.1) — an
absolute path is lexically resolved as is; a relative path is joined to the
current working directory `cwd` (given as the segment list of an absolute
path) and then resolved. -/
def absolutize (cwd : List Seg) (p : RPath) : RPath :=
  if p.absolute then ⟨true, lexResolve p.segs⟩
  else ⟨true, lexResolve (cwd ++ p.segs)⟩

/-- Folding `lexStep` over any list keeps the accumulated stack free of `.`
and `..` segments. -/
theorem foldl_lexStep_all_normal (l : List Seg) : ∀ acc : List Seg,
    (∀ x ∈ acc, ∃ n, x = Seg.normal n) →
    ∀ x ∈ l.foldl lexStep acc, ∃ n, x = Seg.normal n := by
  induction l with
  | nil => intro acc hacc; simpa using hacc
  | cons s l ih =>
    intro acc hacc
    refine ih (lexStep acc s) ?_
    cases s with
    | dot => exact hacc
    | dotdot =>
      intro x hx
      exact hacc x (List.dropLast_sublist acc |>.subset hx)
    | normal n =>
      intro x hx
      rcases List.mem_append.mp hx with hx1 | hx2
      · exact hacc x hx1
      · exact ⟨n, List.mem_singleton.mp hx2⟩

/-- Folding `lexStep` over a list of normal segments just appends it. -/
theorem foldl_lexStep_of_normal (l : List Seg)
    (hl : ∀ x ∈ l, ∃ n, x = Seg.normal n) :
    ∀ acc : List Seg, l.foldl lexStep acc = acc ++ l := by
  induction l with
  | nil => intro acc; simp
  | cons s l ih =>
    intro acc
    obtain ⟨n, rfl⟩ := hl s (by simp)
    have hl2 : ∀ x ∈ l, ∃ m, x = Seg.normal m := fun x hx => hl x (by simp [hx])
    calc (Seg.normal n :: l).foldl lexStep acc
        = l.foldl lexStep (acc ++ [Seg.normal n]) := rfl
      _ = (acc ++ [Seg.normal n]) ++ l := ih hl2 (acc ++ [Seg.normal n])
      _ = acc ++ (Seg.normal n :: l) := by simp

/-- Lexical resolution is idempotent: its output has no `.`/`..` left. -/
theorem lexResolve_idem (l : List Seg) : lexResolve (lexResolve l) = lexResolve l := by
  have h1 := foldl_lexStep_all_normal l [] (by simp)
  have h2 := foldl_lexStep_of_normal (lexResolve l) h1 []
  simpa [lexResolve] using h2

/-- Claim C8: `absolutize` is idempotent — applying it twice (with the same
working directory) gives the same result as applying it once. -/
theorem absolutize_idempotent_c8 (cwd : List Seg) (p : RPath) :
    absolutize cwd (absolutize cwd p) = absolutize cwd p := by
  rcases p with ⟨a, segs⟩
  cases a <;> simp [absolutize, lexResolve_idem]

/-- The `FileTypes` enum of `src/file_types.rs` (lines 7-11). -/
inductive FileTypes
  | File
  | Directory
  | Symlink
deriving DecidableEq

/-- The filesystem state visible to the embedded operations: for each path
the classification of the entry bound there (`none` when nothing exists at
the path), its byte length, and its direct directory entries.  `byteLen`
and `entries` are consulted only at paths whose `kind` makes them
meaningful.  The model flattens symlink-following (`Path::exists` and
`FileTypes::which` observe the same `kind` map) and does not track the
children of a renamed directory. -/
structure FileSystem where
  kind : Str → Option FileTypes
  byteLen : Str → Nat
  entries : Str → List Str

/-- `Path::exists` against the model. -/
def FileSystem.pathExists (fs : FileSystem) (p : Str) : Bool :=
  (fs.kind p).isSome

/-- `Path::is_dir` against the model. -/
def FileSystem.isDir (fs : FileSystem) (p : Str) : Bool :=
  match fs.kind p with
  | some FileTypes.Directory => true
  | _ => false

/-- `Path::is_symlink` against the model. -/
def FileSystem.isSymlink (fs : FileSystem) (p : Str) : Bool :=
  match fs.kind p with
  | some FileTypes.Symlink => true
  | _ => false

/-- `FileTypes::which` of `src/file_types.rs` (lines 46-61): classify an
existing path, fail with `NotFound` otherwise. -/
def FileTypes.which (fs : FileSystem) (p : Str) : Except Error FileTypes :=
  if fs.pathExists p then
    if fs.isDir p then .ok .Directory
    else if fs.isSymlink p then .ok .Symlink
    else .ok .File
  else .error (.NotFound p)

namespace LibRs

/-- The `FileTypes` enum of the `src/lib.rs` revision (lines 19-24), which
has a fourth `None` variant for non-existent paths. -/
inductive FileTypes
  | File
  | Directory
  | Symlink
  | None
deriving DecidableEq

/-- `FileTypes::which` of the `src/lib.rs` revision (lines 38-52): total,
returning the sentinel `FileTypes::None` instead of failing when the path
does not exist. -/
def FileTypes.which (fs : FileSystem) (p : Str) : FileTypes :=
  if fs.pathExists p then
    if fs.isDir p then .Directory
    else if fs.isSymlink p then .Symlink
    else .File
  else .None

end LibRs

/-- On an existing path `which` returns exactly the stored classification. -/
theorem which_of_kind (fs : FileSystem) (p : Str) (k : FileTypes)
    (h : fs.kind p = some k) : FileTypes.which fs p = .ok k := by
  unfold FileTypes.which FileSystem.pathExists FileSystem.isDir FileSystem.isSymlink
  rw [h]
  cases k <;> rfl

/-- On a missing path `which` fails with `NotFound`. -/
theorem which_of_none (fs : FileSystem) (p : Str) (h : fs.kind p = none) :
    FileTypes.which fs p = .error (.NotFound p) := by
  unfold FileTypes.which FileSystem.pathExists
  rw [h]
  rfl

/-- `pathExists` is false exactly at paths with no entry. -/
theorem pathExists_false_iff (fs : FileSystem) (p : Str) :
    fs.pathExists p = false ↔ fs.kind p = none := by
  unfold FileSystem.pathExists
  cases fs.kind p <;> simp

/-- `pathExists` is true exactly at paths with some entry. -/
theorem pathExists_true_iff (fs : FileSystem) (p : Str) :
    fs.pathExists p = true ↔ ∃ k, fs.kind p = some k := by
  unfold FileSystem.pathExists
  cases fs.kind p <;> simp

/-- Model of `Path::file_name`: the last non-empty, non-`.` component of the
path, or nothing when the path ends in `..` or has no component. -/
def fileName (s : Str) : Option Str :=
  let comps := (List.splitOn '/' s).filter (fun c => decide (c ≠ [] ∧ c ≠ ['.']))
  match comps.getLast? with
  | some c => if c = ['.', '.'] then none else some c
  | none => none

/-- `Filey::file_name` (`src/file_operations.rs` lines 165-168). -/
def Filey.file_name (f : Filey) : Option Str := fileName f.path

/-- Models `std::fs::rename` on the flat filesystem state: fails when the
source has no entry, otherwise moves the source's top-level binding to the
destination.  As with POSIX rename, an existing destination entry is
replaced — it is `move_to`'s own existence check, not `rename`, that
prevents overwrites. -/
def rename (fs : FileSystem) (src dst : Str) : Except Error FileSystem :=
  match fs.kind src with
  | none => .error .FileyError
  | some k =>
    .ok { kind := fun p => if p = dst then some k else if p = src then none else fs.kind p
        , byteLen := fun p => if p = dst then fs.byteLen src else fs.byteLen p
        , entries := fun p => if p = dst then fs.entries src else fs.entries p }

/-- A succeeding rename and the binding it creates at the destination. -/
theorem rename_ok (fs : FileSystem) (src dst : Str) (k : FileTypes)
    (h : fs.kind src = some k) :
    ∃ fs2, rename fs src dst = .ok fs2 ∧ fs2.kind dst = some k := by
  unfold rename
  rw [h]
  exact ⟨_, rfl, by simp⟩

namespace FileOperations

/-- `Filey::file_type` of `src/file_operations.rs` (lines 76-79). -/
def file_type (fs : FileSystem) (self : Filey) : Except Error FileTypes :=
  FileTypes.which fs self.path

/-- `Filey::list` of `src/file_operations.rs` (lines 592-608): the direct
entries of a directory; `NotADirectory` otherwise.  (`read_dir` items are
assumed readable; permission failures are not modelled.) -/
def list (fs : FileSystem) (self : Filey) : Except Error (List Str) :=
  match file_type fs self with
  | .error e => .error e
  | .ok k =>
    if k ≠ FileTypes.Directory then .error (.NotADirectory self.path)
    else .ok (fs.entries self.path)

/-- `Filey::size` of `src/file_operations.rs` (lines 102-113): entry count
for a directory, byte length otherwise. -/
def size (fs : FileSystem) (self : Filey) : Except Error Nat :=
  match file_type fs self with
  | .error e => .error e
  | .ok k =>
    if k = FileTypes.Directory then
      match list fs self with
      | .error e => .error e
      | .ok v => .ok v.length
    else .ok (fs.byteLen self.path)

/-- The destination string `format!("\x7b\x7d/\x7b\x7d", p, ...)` that
`move_to` builds when the destination is a directory: the destination path,
a slash, and the source's file name (falling back to the whole source path
when it has no file name). -/
def resolvedDest (self : Filey) (path : Str) : Str :=
  path ++ '/' :: ((Filey.file_name self).getD self.path)

/-- `Filey::move_to` of `src/file_operations.rs` (lines 383-417). -/
def move_to (fs : FileSystem) (self : Filey) (path : Str) :
    Except Error (Filey × FileSystem) :=
  if fs.pathExists path then
    match FileTypes.which fs path with
    | .error e => .error e
    | .ok FileTypes.Directory =>
      if fs.pathExists (resolvedDest self path) then
        .error (.SameNameAlreadyExists (resolvedDest self path))
      else
        match rename fs self.path (resolvedDest self path) with
        | .error e => .error e
        | .ok fs2 => .ok (⟨resolvedDest self path⟩, fs2)
    | .ok _ => .error (.AlreadyExists path)
  else if fs.pathExists path then
    .error (.SameNameAlreadyExists path)
  else
    match rename fs self.path path with
    | .error e => .error e
    | .ok fs2 => .ok (⟨path⟩, fs2)

end FileOperations

/-- `Filey::list` on a directory returns its entries. -/
theorem list_of_dir (fs : FileSystem) (self : Filey)
    (h : fs.kind self.path = some FileTypes.Directory) :
    FileOperations.list fs self = .ok (fs.entries self.path) := by
  unfold FileOperations.list FileOperations.file_type
  rw [which_of_kind fs self.path FileTypes.Directory h]
  rfl

/-- Claim C5: `size` of a handle denoting an existing directory is the
count of its direct entries, and `size` of a handle denoting an existing
regular file is its byte length. -/
theorem size_convention_c5 (fs : FileSystem) (self : Filey) :
    (fs.kind self.path = some FileTypes.Directory →
      FileOperations.size fs self = .ok (fs.entries self.path).length)
    ∧ (fs.kind self.path = some FileTypes.File →
      FileOperations.size fs self = .ok (fs.byteLen self.path)) := by
  constructor
  · intro h
    unfold FileOperations.size FileOperations.file_type
    rw [which_of_kind fs self.path FileTypes.Directory h, list_of_dir fs self h]
    rfl
  · intro h
    unfold FileOperations.size FileOperations.file_type
    rw [which_of_kind fs self.path FileTypes.File h]
    rfl

/-- A tiny concrete filesystem: directory `d` with three entries, 0-byte
file `f`, nothing else. -/
def fsDemo : FileSystem :=
  { kind := fun p =>
      if p = ("d".data) then some FileTypes.Directory
      else if p = ("f".data) then some FileTypes.File
      else none
  , byteLen := fun _ => 0
  , entries := fun p =>
      if p = ("d".data) then ["a".data, "b".data, "c".data] else [] }

/-- Witness for C5: a directory with 3 entries has size 3; a 0-byte file has
size 0. -/
theorem size_convention_c5_witness :
    FileOperations.size fsDemo ⟨"d".data⟩ = .ok 3
    ∧ FileOperations.size fsDemo ⟨"f".data⟩ = .ok 0 :=
  ⟨(size_convention_c5 fsDemo ⟨"d".data⟩).1 (by decide),
    (size_convention_c5 fsDemo ⟨"f".data⟩).2 (by decide)⟩

/-- Claim C4, amended: `FileTypes::which` of `src/file_types.rs` and
`Filey::size` of `src/file_operations.rs` both fail with `NotFound` on a
non-existent path; the superseded `src/lib.rs` revision of `which`, however,
returns the sentinel kind `FileTypes::None` there instead of failing (see
the counterexample). -/
theorem notfound_queries_c4 (fs : FileSystem) (p : Str)
    (h : fs.kind p = none) :
    FileTypes.which fs p = .error (Error.NotFound p)
    ∧ FileOperations.size fs ⟨p⟩ = .error (Error.NotFound p) := by
  have hw : FileTypes.which fs ((⟨p⟩ : Filey).path) = .error (Error.NotFound p) :=
    which_of_none fs p h
  refine ⟨hw, ?_⟩
  unfold FileOperations.size FileOperations.file_type
  rw [hw]

/-- The empty filesystem. -/
def fsEmpty : FileSystem :=
  { kind := fun _ => none, byteLen := fun _ => 0, entries := fun _ => [] }

/-- Claim C4 counterexample: on a non-existent path the `src/lib.rs`
revision of the file-kind classification query does not fail with NotFound —
it cannot fail at all — and returns the default `None` kind, contradicting
the claim that no classification query returns a None-like default. -/
theorem notfound_queries_c4_cex :
    fsEmpty.kind ("missing".data) = none
    ∧ LibRs.FileTypes.which fsEmpty ("missing".data) = LibRs.FileTypes.None :=
  ⟨rfl, rfl⟩

/-- Witness for the amended C4 on the empty filesystem. -/
theorem notfound_queries_c4_witness :
    FileTypes.which fsEmpty ("gone".data) = .error (Error.NotFound ("gone".data))
    ∧ FileOperations.size fsEmpty ⟨"gone".data⟩
      = .error (Error.NotFound ("gone".data)) :=
  notfound_queries_c4 fsEmpty ("gone".data) rfl

/-- Claim C1: `move_to`'s destination resolution.  Into an existing
directory, the resolved destination is `destination/<source file name>`;
if that resolved path already exists the call fails with the
already-exists error and nothing is renamed; a destination that exists but
is not a directory fails with `AlreadyExists`; a non-existent destination
is used verbatim.  Every success returns a new handle bound to the
resolved destination, which did not exist beforehand (no silent
overwrite) and now holds the entry the source held. -/
theorem move_to_resolves_destination_c1 (fs : FileSystem) (self : Filey)
    (path : Str) :
    (fs.kind path = some FileTypes.Directory →
      fs.pathExists (FileOperations.resolvedDest self path) = true →
      FileOperations.move_to fs self path
        = .error (Error.SameNameAlreadyExists (FileOperations.resolvedDest self path)))
    ∧ (fs.kind path = some FileTypes.Directory →
      fs.pathExists (FileOperations.resolvedDest self path) = false →
      fs.pathExists self.path = true →
      ∃ fs2, FileOperations.move_to fs self path
        = .ok (⟨FileOperations.resolvedDest self path⟩, fs2))
    ∧ (fs.pathExists path = true → fs.kind path ≠ some FileTypes.Directory →
      FileOperations.move_to fs self path = .error (Error.AlreadyExists path))
    ∧ (fs.pathExists path = false → fs.pathExists self.path = true →
      ∃ fs2, FileOperations.move_to fs self path = .ok (⟨path⟩, fs2))
    ∧ (∀ g fs2, FileOperations.move_to fs self path = .ok (g, fs2) →
      fs.kind g.path = none ∧ fs2.kind g.path = fs.kind self.path) := by
  refine ⟨?_, ?_, ?_, ?_, ?_⟩
  · intro hdir hex
    have hp : fs.pathExists path = true := by
      unfold FileSystem.pathExists
      rw [hdir]
      rfl
    have hw := which_of_kind fs path FileTypes.Directory hdir
    simp [FileOperations.move_to, hp, hw, hex]
  · intro hdir hto hself
    obtain ⟨k, hk⟩ := (pathExists_true_iff fs self.path).mp hself
    obtain ⟨fs2, hr, hk2⟩ :=
      rename_ok fs self.path (FileOperations.resolvedDest self path) k hk
    have hp : fs.pathExists path = true := by
      unfold FileSystem.pathExists
      rw [hdir]
      rfl
    have hw := which_of_kind fs path FileTypes.Directory hdir
    exact ⟨fs2, by simp [FileOperations.move_to, hp, hw, hto, hr]⟩
  · intro hp hnd
    obtain ⟨k, hk⟩ := (pathExists_true_iff fs path).mp hp
    have hw := which_of_kind fs path k hk
    cases k with
    | Directory => exact absurd hk hnd
    | File => simp [FileOperations.move_to, hp, hw]
    | Symlink => simp [FileOperations.move_to, hp, hw]
  · intro hne hself
    obtain ⟨k, hk⟩ := (pathExists_true_iff fs self.path).mp hself
    obtain ⟨fs2, hr, hk2⟩ := rename_ok fs self.path path k hk
    exact ⟨fs2, by simp [FileOperations.move_to, hne, hr]⟩
  · intro g fs2 hok
    by_cases hp : fs.pathExists path = true
    · obtain ⟨k, hk⟩ := (pathExists_true_iff fs path).mp hp
      have hw := which_of_kind fs path k hk
      cases k with
      | File => simp [FileOperations.move_to, hp, hw] at hok
      | Symlink => simp [FileOperations.move_to, hp, hw] at hok
      | Directory =>
        by_cases hex : fs.pathExists (FileOperations.resolvedDest self path) = true
        · simp [FileOperations.move_to, hp, hw, hex] at hok
        · have hexf : fs.pathExists (FileOperations.resolvedDest self path) = false := by
            revert hex
            cases fs.pathExists (FileOperations.resolvedDest self path) <;> simp
          rcases hsk : fs.kind self.path with _ | k2
          · simp [FileOperations.move_to, hp, hw, hexf, rename, hsk] at hok
          · obtain ⟨fs3, hr, hk3⟩ :=
              rename_ok fs self.path (FileOperations.resolvedDest self path) k2 hsk
            simp [FileOperations.move_to, hp, hw, hexf, hr] at hok
            obtain ⟨hg, hfs⟩ := hok
            subst hfs
            subst hg
            exact ⟨(pathExists_false_iff fs _).mp hexf, hk3⟩
    · have hne : fs.pathExists path = false := by
        revert hp
        cases fs.pathExists path <;> simp
      rcases hsk : fs.kind self.path with _ | k2
      · simp [FileOperations.move_to, hne, rename, hsk] at hok
      · obtain ⟨fs3, hr, hk3⟩ := rename_ok fs self.path path k2 hsk
        simp [FileOperations.move_to, hne, hr] at hok
        obtain ⟨hg, hfs⟩ := hok
        subst hfs
        subst hg
        exact ⟨(pathExists_false_iff fs _).mp hne, hk3⟩

/-- A concrete filesystem for the C1 witness: source file `t/f`, existing
directory `t/d`, existing file `t/x`. -/
def fsMove : FileSystem :=
  { kind := fun p =>
      if p = ("t/f".data) then some FileTypes.File
      else if p = ("t/d".data) then some FileTypes.Directory
      else if p = ("t/x".data) then some FileTypes.File
      else none
  , byteLen := fun _ => 0
  , entries := fun _ => [] }

/-- Witness for C1: moving `t/f` into the existing directory `t/d` resolves
to `t/d/f` and succeeds; moving it onto the existing file `t/x` fails with
`AlreadyExists`. -/
theorem move_to_resolves_destination_c1_witness :
    FileOperations.resolvedDest ⟨"t/f".data⟩ ("t/d".data) = ("t/d/f".data)
    ∧ (∃ fs2, FileOperations.move_to fsMove ⟨"t/f".data⟩ ("t/d".data)
        = .ok (⟨"t/d/f".data⟩, fs2))
    ∧ FileOperations.move_to fsMove ⟨"t/f".data⟩ ("t/x".data)
      = .error (Error.AlreadyExists ("t/x".data)) :=
  ⟨by decide,
    (move_to_resolves_destination_c1 fsMove ⟨"t/f".data⟩ ("t/d".data)).2.1
      (by decide) (by decide) (by decide),
    (move_to_resolves_destination_c1 fsMove ⟨"t/f".data⟩ ("t/x".data)).2.2.1
      (by decide) (by decide)⟩

end FileyRs
